import Mathlib

/-!
Verification development for the reading-tracker repository.

The statistics engine lives in backend/src/services/StatsService.py and
backend/src/services/wrapped_service.py.  We embed the functions the claims
are about.  Conventions of the embedding:

* A calendar date is represented by its proleptic-Gregorian ordinal
  (Python's date.toordinal), an Int.  Python date subtraction
  (a - b).days is then plain Int subtraction, and timedelta(days=1)
  is the integer 1.  For reference, date(2024,1,1).toordinal() = 738886.
* A date STRING stored in the database is modelled by DateStr: a
  well-formed "YYYY-MM-DD" string is (DateStr.valid year month ordinal)
  carrying the year and month it displays and the ordinal it parses to;
  an ill-formed string is (DateStr.malformed lead) where lead is the
  integer value of its first dash-separated segment when that segment is
  numeric (this is what int(s.split("-")[0]) and s.startswith(str(year))
  can observe), and none otherwise.  A book's optional date column is
  Option DateStr, where none covers both SQL NULL and the empty string
  (both falsy in Python and rejected by every startswith guard).
* Python exceptions (ValueError from datetime.strptime, from int())
  are modelled with Except Unit: functions that can raise return
  Except Unit _, and raising is Except.error ().
* Python dicts built by insertion (defaultdict accumulation) are
  modelled as insertion-ordered association lists; max(keys, key=f)
  keeps the first-encountered maximum, like Python's max.
-/

/-- Equality of Except results is decidable when both components are. -/
instance {e a : Type} [DecidableEq e] [DecidableEq a] :
    DecidableEq (Except e a) := fun x y =>
  match x, y with
  | .ok u, .ok v =>
      if h : u = v then .isTrue (by rw [h]) else .isFalse (by simp [h])
  | .error u, .error v =>
      if h : u = v then .isTrue (by rw [h]) else .isFalse (by simp [h])
  | .ok _, .error _ => .isFalse (by simp)
  | .error _, .ok _ => .isFalse (by simp)

/-- Model of a date string from the database (see module docstring). -/
inductive DateStr where
  | valid (year : Int) (month : Nat) (ordinal : Int)
  | malformed (lead : Option Int)
deriving DecidableEq, Repr

namespace DateStr

/-- Model of datetime.strptime(s, "%Y-%m-%d").date(): returns the date
(as an ordinal) for a well-formed string and raises ValueError otherwise. -/
def strptime : DateStr → Except Unit Int
  | valid _ _ d => .ok d
  | malformed _ => .error ()

/-- Model of s.startswith(str(year)) for the date strings the engine
filters with (the LIKE "year%" SQL filter uses the same test). -/
def startsWithYear (year : Int) : DateStr → Bool
  | valid y _ _ => y = year
  | malformed (some p) => p = year
  | malformed none => false

/-- Model of int(s.split("-")[0]): the leading integer segment, raising
ValueError when the first segment is not numeric. -/
def leadInt : DateStr → Except Unit Int
  | valid y _ _ => .ok y
  | malformed (some p) => .ok p
  | malformed none => .error ()

/-- A date string that datetime.strptime accepts. -/
def isValid : DateStr → Prop
  | valid _ _ _ => True
  | malformed _ => False

instance : DecidablePred isValid := by
  intro d; cases d <;> simp [isValid] <;> infer_instance

end DateStr

/-- Model of models/ReadingSession.py: one reading-session row. -/
structure Session where
  id : Int
  book_id : Int
  date : DateStr
  minutes_read : Int
deriving DecidableEq, Repr

/-- Model of models/Book.py restricted to the fields the engine reads. -/
structure Book where
  id : Int
  title : String
  author : Option String
  start_date : Option DateStr
  end_date : Option DateStr
  status : String
deriving DecidableEq, Repr

/-- One row of SessionRepository.get_all_sessions_with_books():
the (session_id, book_id, date, minutes_read, title, author) join tuple. -/
structure SessionWithBook where
  session_id : Int
  book_id : Int
  date : DateStr
  minutes_read : Int
  title : String
  author : Option String
deriving DecidableEq, Repr

/-!  Streak calculation, StatsService.py lines 241-350.

A Python set of dates is modelled as a duplicate-free List Int: adding an
element is a no-op when it is already present, membership and emptiness
are the list's, max(set) is pyMax, and sorted(set) is insertion sort.  -/

/-- Model of Python's set.add. -/
def setAdd (d : Int) (u : List Int) : List Int :=
  if d ∈ u then u else d :: u

/-- Model of Python's max over a collection of dates (max of the empty
collection raises, hence the Option). -/
def pyMax : List Int → Option Int
  | [] => none
  | x :: xs =>
      match pyMax xs with
      | none => some x
      | some m => some (max x m)

/-- The unique-date extraction loop shared by calculate_current_streak and
calculate_max_streak (StatsService.py lines 261-270 and 317-326): parse
every session date with strptime, collecting the distinct results; the
first malformed date raises. -/
def extractUniqueDates : List Session → Except Unit (List Int)
  | [] => .ok []
  | s :: rest =>
      match s.date.strptime with
      | .error e => .error e
      | .ok d =>
          match extractUniqueDates rest with
          | .error e => .error e
          | .ok u => .ok (setAdd d u)

/-- The backward-walking while-loop of calculate_current_streak
(StatsService.py lines 289-296): starting at date d, count how many
consecutive dates d, d-1, d-2, ... lie in the set.  The Python loop needs
no fuel because the set is finite; here we pass fuel = u.length, which is
enough because each successful step consumes a distinct member of u. -/
def countBack (u : List Int) : Int → Nat → Nat
  | _, 0 => 0
  | d, fuel + 1 => if d ∈ u then countBack u (d - 1) fuel + 1 else 0

/-- StatsService.calculate_current_streak (lines 241-298), with today
(Python date.today()) passed explicitly as an ordinal. -/
def calculate_current_streak (sessions : List Session) (today : Int) :
    Except Unit Nat :=
  if sessions.isEmpty then .ok 0
  else
    match extractUniqueDates sessions with
    | .error e => .error e
    | .ok unique_dates =>
        if unique_dates.isEmpty then .ok 0
        else
          match pyMax unique_dates with
          | none => .ok 0
          | some most_recent_date =>
              -- days_since_last_session = today - most_recent_date
              if today - most_recent_date > 1 then .ok 0
              else .ok (countBack unique_dates most_recent_date unique_dates.length)

/-- The scanning for-loop shared by StatsService.calculate_max_streak
(lines 334-347) and WrappedService._calculate_longest_streak (lines 87-96):
prev is sorted_dates[i-1], cur and mx are the current_streak and
max_streak accumulators (both start at 1), and the list argument is the
tail sorted_dates[1:]. -/
def scanStreak (prev : Int) (cur mx : Nat) : List Int → Nat
  | [] => mx
  | d :: rest =>
      if d - prev = 1 then scanStreak d (cur + 1) (max mx (cur + 1)) rest
      else scanStreak d 1 mx rest

/-- StatsService.calculate_max_streak (lines 300-350). -/
def calculate_max_streak (sessions : List Session) : Except Unit Nat :=
  if sessions.isEmpty then .ok 0
  else
    match extractUniqueDates sessions with
    | .error e => .error e
    | .ok unique_dates =>
        if unique_dates.isEmpty then .ok 0
        else
          match List.insertionSort (· ≤ ·) unique_dates with
          | [] => .ok 0
          | d :: rest => .ok (scanStreak d 1 1 rest)

/-- WrappedService._calculate_longest_streak (wrapped_service.py lines
74-97): same scan as calculate_max_streak, but without the separate
set-emptiness check (the Python code checks "if not dates" on the sorted
list, which the match on the sorted list covers). -/
def wrapped_longest_streak (sessions : List Session) : Except Unit Nat :=
  if sessions.isEmpty then .ok 0
  else
    match extractUniqueDates sessions with
    | .error e => .error e
    | .ok dates =>
        match List.insertionSort (· ≤ ·) dates with
        | [] => .ok 0
        | d :: rest => .ok (scanStreak d 1 1 rest)

/-- Ordinal of 2024-01-01 (Python date(2024,1,1).toordinal()). -/
def ord20240101 : Int := 738886

/-- A concrete history with sessions on 2024-01-01, 2024-01-02 and
2024-01-04 (the spec's streak example). -/
def sessJan : List Session :=
  [⟨1, 1, .valid 2024 1 ord20240101, 30⟩,
   ⟨2, 1, .valid 2024 1 (ord20240101 + 1), 20⟩,
   ⟨3, 1, .valid 2024 1 (ord20240101 + 3), 10⟩]

/-- A concrete history with a single session on 2024-01-01. -/
def sessJan1 : List Session := [⟨1, 1, .valid 2024 1 ord20240101, 30⟩]

/-- The run of consecutive integers a, a+1, ..., a+k-1 (proof-support
notion used to reason about consecutive-day runs inside the date set). -/
def consecFrom (a : Int) : Nat → List Int
  | 0 => []
  | k + 1 => a :: consecFrom (a + 1) k

/-!  Shared helpers for the aggregation functions.  -/

/-- Model of Python str.strip() (over the ASCII whitespace the data
contains): drop whitespace from both ends. -/
def pyStrip (s : String) : String :=
  String.mk (((s.data.dropWhile Char.isWhitespace).reverse.dropWhile
    Char.isWhitespace).reverse)

/-- A Python dict value appearing in the stats mappings: an int or a
float produced by round(..., 1) (modelled exactly as a rational). -/
inductive PyVal where
  | int (n : Int)
  | rat (q : ℚ)
deriving DecidableEq, Repr

/-- Model of a Python defaultdict update dict[k] = f(dict[k]) with
default value dflt: dicts are insertion-ordered association lists, the
first binding of a key holds its current value. -/
def updAssoc {κ α : Type} [DecidableEq κ] (k : κ) (dflt : α) (f : α → α) :
    List (κ × α) → List (κ × α)
  | [] => [(k, f dflt)]
  | (k', v) :: rest =>
      if k = k' then (k', f v) :: rest else (k', v) :: updAssoc k dflt f rest

/-- Model of dict.get(k, dflt). -/
def lookupD {κ α : Type} [DecidableEq κ] (l : List (κ × α)) (k : κ)
    (dflt : α) : α :=
  match l.find? (fun p => p.1 = k) with
  | none => dflt
  | some p => p.2

/-- Model of Python max(iterable, key=f): the first element attaining the
maximal key, none on an empty iterable (where Python raises). -/
def maxByFirst {α : Type} (f : α → Int) : List α → Option α
  | [] => none
  | x :: xs =>
      match maxByFirst f xs with
      | none => some x
      | some y => if f x < f y then some y else some x

/-- One step of a stable descending sort by an integer key: insert before
the first strictly smaller element (equal keys keep their order). -/
def insertByDesc {α : Type} (f : α → Int) (x : α) : List α → List α
  | [] => [x]
  | y :: ys => if f y < f x then x :: y :: ys else y :: insertByDesc f x ys

/-- Model of Python sorted(l, key=f, reverse=True) and
l.sort(key=f, reverse=True): stable descending sort by key. -/
def sortByDesc {α : Type} (f : α → Int) (l : List α) : List α :=
  l.foldr (insertByDesc f) []

/-- Model of Python max(iterable, default=dflt). -/
def pyMaxD (l : List Int) (dflt : Int) : Int :=
  match pyMax l with
  | none => dflt
  | some m => m

/-- Round a rational to the nearest integer, ties to even: the rounding
Python's round() uses. -/
def roundHalfEven (t : ℚ) : Int :=
  if t - ⌊t⌋ < 1 / 2 then ⌊t⌋
  else if t - ⌊t⌋ > 1 / 2 then ⌊t⌋ + 1
  else if ⌊t⌋ % 2 = 0 then ⌊t⌋ else ⌊t⌋ + 1

/-- Model of Python round(q, 1). -/
def pyRound1 (q : ℚ) : ℚ := (roundHalfEven (10 * q) : ℚ) / 10

/-- Model of date.month of a parsed date string (raises on a malformed
string, exactly when strptime does). -/
def DateStr.monthOf : DateStr → Except Unit Nat
  | .valid _ m _ => .ok m
  | .malformed _ => .error ()

/-- Sum of minutes_read over sessions (the sum(...) generator idiom). -/
def sumMinutes (sessions : List Session) : Int :=
  (sessions.map (·.minutes_read)).sum

/-- Sum of the values of a dict. -/
def sumValues {κ : Type} (l : List (κ × Int)) : Int :=
  (l.map Prod.snd).sum

/-!  Aggregation primitives, StatsService.py lines 31-239 and 352-525.  -/

/-- Model of the session fetch in StatsService methods: get_by_year
(SQL date LIKE "year%") when a year is given, get_all otherwise. -/
def filterYear (year : Option Int) (sessions : List Session) : List Session :=
  match year with
  | none => sessions
  | some y => sessions.filter (fun s => s.date.startsWithYear y)

/-- The inline year filter applied to joined session rows (the
isinstance-str branch: date.startswith(str(year))). -/
def swbYearKeep (year : Option Int) (t : SessionWithBook) : Bool :=
  match year with
  | none => true
  | some y => t.date.startsWithYear y

/-- StatsService.get_total_time_read (lines 31-50). -/
def get_total_time_read (sessions : List Session) (year : Option Int) : Int :=
  sumMinutes (filterYear year sessions)

/-- StatsService.get_daily_stats (lines 52-83): total minutes grouped by
the raw date value. -/
def get_daily_stats (sessions : List Session) (year : Option Int) :
    List (DateStr × Int) :=
  (filterYear year sessions).foldl
    (fun acc s => updAssoc s.date 0 (· + s.minutes_read) acc) []

/-- The per-book record of StatsService.get_time_by_book. -/
structure BookAgg where
  title : String
  author : String
  total_minutes : Int
deriving DecidableEq, Repr

/-- StatsService.get_time_by_book (lines 85-121): per-book totals over
the joined rows; title and author are overwritten by the last row seen,
a missing author becomes the empty string. -/
def get_time_by_book (swb : List SessionWithBook) (year : Option Int) :
    List (Int × BookAgg) :=
  swb.foldl
    (fun acc t =>
      if swbYearKeep year t then
        updAssoc t.book_id ⟨"", "", 0⟩
          (fun v => ⟨t.title, t.author.getD "", v.total_minutes + t.minutes_read⟩)
          acc
      else acc) []

/-- The record StatsService.get_most_read_book returns (also the shape
of the top_books entries of get_wrapped_stats). -/
structure BookMinutes where
  book_id : Int
  title : String
  author : String
  total_minutes : Int
deriving DecidableEq, Repr

/-- StatsService.get_most_read_book (lines 123-153): None when the
book grouping is empty, else the first book attaining the maximal total
(Python max over dict keys keeps the first maximum in insertion order). -/
def get_most_read_book (swb : List SessionWithBook) (year : Option Int) :
    Option BookMinutes :=
  match maxByFirst (fun p => p.2.total_minutes) (get_time_by_book swb year) with
  | none => none
  | some p => some ⟨p.1, p.2.title, p.2.author, p.2.total_minutes⟩

/-- The author_totals accumulation of StatsService.get_most_read_author
(lines 370-387): sessions whose author is falsy or whitespace-only
(author and author.strip()) are skipped. -/
def author_totals (swb : List SessionWithBook) (year : Option Int) :
    List (String × Int) :=
  swb.foldl
    (fun acc t =>
      if swbYearKeep year t then
        match t.author with
        | none => acc
        | some a =>
            if a = "" then acc
            else if pyStrip a = "" then acc
            else updAssoc a 0 (· + t.minutes_read) acc
      else acc) []

/-- StatsService.get_most_read_author (lines 352-396). -/
def get_most_read_author (swb : List SessionWithBook) (year : Option Int) :
    Option String :=
  if swb.isEmpty then none
  else
    match maxByFirst (fun p => p.2) (author_totals swb year) with
    | none => none
    | some p => some p.1

/-- StatsService.get_books_read_in_year (lines 201-239): distinct book
ids among the year's joined rows. -/
def get_books_read_in_year (swb : List SessionWithBook) (year : Int) : Nat :=
  if swb.isEmpty then 0
  else
    (((swb.filter (fun t => t.date.startsWithYear year)).map
      (·.book_id)).dedup).length

/-- The accumulation loop of StatsService.get_books_finished_by_year
(lines 169-199): count finished books by the year of their end_date
(int(end_date.split("-")[0]), which raises on a non-numeric segment);
books without finished status or with a falsy end_date are skipped. -/
def booksFinishedLoop (acc : List (Int × Nat)) :
    List Book → Except Unit (List (Int × Nat))
  | [] => .ok acc
  | b :: rest =>
      if b.status = "finished" then
        match b.end_date with
        | none => booksFinishedLoop acc rest
        | some ed =>
            match ed.leadInt with
            | .error e => .error e
            | .ok y => booksFinishedLoop (updAssoc y 0 (· + 1) acc) rest
      else booksFinishedLoop acc rest

/-- StatsService.get_books_finished_by_year (lines 169-199). -/
def get_books_finished_by_year (books : List Book) :
    Except Unit (List (Int × Nat)) :=
  booksFinishedLoop [] books

/-- Python truthiness of b.get_start_date() combined with
startswith(str(year)), as used for started-in-year filters. -/
def startedTruthyInYear (year : Int) (b : Book) : Bool :=
  match b.start_date with
  | none => false
  | some d => d.startsWithYear year

/-- status == "finished" and truthy end_date and
end_date.startswith(str(year)). -/
def finishedInYear (year : Int) (b : Book) : Bool :=
  b.status = "finished" &&
    (match b.end_date with
     | none => false
     | some d => d.startsWithYear year)

/-- The record StatsService.get_wrapped_stats returns (lines 509-522). -/
structure WrappedStats where
  year : Int
  total_minutes_read : Int
  total_hours_read : ℚ
  books_read : Nat
  books_finished_in_year : Nat
  days_read : Nat
  average_minutes_per_day : ℚ
  most_read_book : Option BookMinutes
  most_read_author : Option String
  longest_session : Int
  current_streak : Nat
  top_books : List BookMinutes
deriving DecidableEq, Repr

/-- StatsService.get_wrapped_stats (lines 438-525).  The two fallible
subcalls are get_books_finished_by_year (line 474) and
calculate_current_streak (line 507), in that source order; every other
field is a pure aggregate of the year-filtered data. -/
def get_wrapped_stats (sessions : List Session) (swb : List SessionWithBook)
    (books : List Book) (year : Int) (today : Int) :
    Except Unit WrappedStats :=
  match get_books_finished_by_year books with
  | .error e => .error e
  | .ok bfy =>
      match calculate_current_streak sessions today with
      | .error e => .error e
      | .ok current_streak =>
          .ok
            { year := year
              total_minutes_read := get_total_time_read sessions (some year)
              total_hours_read :=
                pyRound1 ((get_total_time_read sessions (some year) : ℚ) / 60)
              books_read := get_books_read_in_year swb year
              books_finished_in_year := lookupD bfy year 0
              days_read := (get_daily_stats sessions (some year)).length
              average_minutes_per_day :=
                if 0 < (get_daily_stats sessions (some year)).length then
                  pyRound1 ((get_total_time_read sessions (some year) : ℚ)
                    / ((get_daily_stats sessions (some year)).length : ℚ))
                else 0
              most_read_book := get_most_read_book swb (some year)
              most_read_author := get_most_read_author swb (some year)
              longest_session :=
                pyMaxD ((filterYear (some year) sessions).map (·.minutes_read)) 0
              current_streak := current_streak
              top_books :=
                ((sortByDesc (fun p => p.2.total_minutes)
                    (get_time_by_book swb (some year))).take 5).map
                  (fun p => ⟨p.1, p.2.title, p.2.author, p.2.total_minutes⟩) }

/-!  WrappedService, wrapped_service.py.  -/

/-- Model of next((b for b in books if b.get_id() == id), None). -/
def findBook (books : List Book) (bid : Int) : Option Book :=
  books.find? (fun b => b.id = bid)

/-- The author_minutes accumulation of
WrappedService.calculate_authors_stats (lines 179-184): a session is
skipped when its book is missing or the author is falsy
(if book and book.get_author()); note this does NOT strip whitespace. -/
def author_minutes_wrapped (sessions : List Session) (books : List Book) :
    List (String × Int) :=
  sessions.foldl
    (fun acc s =>
      match findBook books s.book_id with
      | none => acc
      | some b =>
          match b.author with
          | none => acc
          | some a =>
              if a = "" then acc
              else updAssoc a 0 (· + s.minutes_read) acc) []

/-- An author entry of calculate_authors_stats: name, minutes,
hours = round(minutes / 60, 1). -/
structure AuthorEntry where
  name : String
  minutes : Int
  hours : ℚ
deriving DecidableEq, Repr

/-- The record WrappedService.calculate_authors_stats returns. -/
structure AuthorsStats where
  most_read_author : Option AuthorEntry
  unique_authors : Nat
  top_3_authors : List AuthorEntry
deriving DecidableEq, Repr

/-- WrappedService.calculate_authors_stats (lines 167-211). -/
def calculate_authors_stats (sessions : List Session) (books : List Book) :
    AuthorsStats :=
  if sessions.isEmpty then ⟨none, 0, []⟩
  else
    let am := author_minutes_wrapped sessions books
    if am.isEmpty then ⟨none, 0, []⟩
    else
      let sorted_authors := sortByDesc (fun p => p.2) am
      { most_read_author :=
          match sorted_authors with
          | [] => none
          | p :: _ => some ⟨p.1, p.2, pyRound1 ((p.2 : ℚ) / 60)⟩
        unique_authors := am.length
        top_3_authors :=
          (sorted_authors.take 3).map
            (fun p => ⟨p.1, p.2, pyRound1 ((p.2 : ℚ) / 60)⟩) }

/-- The record WrappedService.calculate_reading_status returns; a
longest_in_reading entry is (title, author, days). -/
structure ReadingStatus where
  books_finished : Nat
  books_started : Nat
  currently_reading : Nat
  completion_rate : ℚ
  longest_in_reading : List (String × Option String × Int)
deriving DecidableEq, Repr

/-- WrappedService.calculate_reading_status (lines 294-339), with
datetime.now() passed explicitly as an ordinal.  The per-book strptime
of start_date sits in a try/except that skips the book on any error
(missing or malformed start date), modelled by filterMap. -/
def calculate_reading_status (books : List Book) (year : Int) (now : Int) :
    ReadingStatus :=
  let finished_in_year := books.filter (finishedInYear year)
  let started_in_year := books.filter (startedTruthyInYear year)
  let currently_reading := books.filter (fun b => b.status = "reading")
  let reading_duration :=
    currently_reading.filterMap
      (fun b =>
        match b.start_date with
        | none => none
        | some d =>
            match d.strptime with
            | .error _ => none
            | .ok s => some (b, now - s))
  { books_finished := finished_in_year.length
    books_started := started_in_year.length
    currently_reading := currently_reading.length
    completion_rate :=
      if started_in_year.length ≠ 0 then
        pyRound1 (((finished_in_year.length : ℚ)
          / (started_in_year.length : ℚ)) * 100)
      else 0
    longest_in_reading :=
      ((sortByDesc (fun p => p.2) reading_duration).take 3).map
        (fun p => (p.1.title, p.1.author, p.2)) }

/-- WrappedService.determine_reader_personality (lines 341-379), modelled
by its "type" string; the returned dict also carries a description
string that is a fixed function of the type and holds no logic. -/
def determine_reader_personality (sessions : List Session)
    (books : List Book) (year : Int) : String :=
  if sessions.isEmpty then "beginner"
  else
    -- avg_session = sum(minutes) / len(sessions) (true division),
    -- started_books / finished_books are the year-scoped filters, and
    -- completion_rate = (len(finished) / len(started)) * 100 when any
    -- book started, else 0; all locals are inlined below.
    if sessions.length > 100 ∧
        (sumMinutes sessions : ℚ) / (sessions.length : ℚ) < 30 then
      "constant_reader"
    else if sessions.length < 50 ∧
        (sumMinutes sessions : ℚ) / (sessions.length : ℚ) > 45 then
      "intensive_reader"
    else if (books.filter (startedTruthyInYear year)).length
        > (books.filter (finishedInYear year)).length * 2 then "explorer"
    else if (if (books.filter (startedTruthyInYear year)).length ≠ 0 then
          (((books.filter (finishedInYear year)).length : ℚ)
            / ((books.filter (startedTruthyInYear year)).length : ℚ)) * 100
        else 0) > 80 then "finisher"
    else "balanced_reader"

/-- Day names indexed by Python date.weekday() (Monday = 0). -/
def dayNames : List String :=
  ["Monday", "Tuesday", "Wednesday", "Thursday", "Friday", "Saturday",
   "Sunday"]

/-- Month names indexed by month - 1. -/
def monthNames : List String :=
  ["January", "February", "March", "April", "May", "June", "July",
   "August", "September", "October", "November", "December"]

/-- The day-of-week counting loop of calculate_reading_habits (lines
233-235): weekday of an ordinal d is (d - 1) mod 7 with Monday = 0;
parsing a malformed date raises. -/
def dayCountsLoop (acc : List (Int × Int)) :
    List Session → Except Unit (List (Int × Int))
  | [] => .ok acc
  | s :: rest =>
      match s.date.strptime with
      | .error e => .error e
      | .ok d => dayCountsLoop (updAssoc ((d - 1) % 7) 0 (· + 1) acc) rest

/-- The month-minutes loop of calculate_reading_habits (lines 245-247);
parsing a malformed date raises. -/
def monthMinutesLoop (acc : List (Nat × Int)) :
    List Session → Except Unit (List (Nat × Int))
  | [] => .ok acc
  | s :: rest =>
      match s.date.monthOf with
      | .error e => .error e
      | .ok m => monthMinutesLoop (updAssoc m 0 (· + s.minutes_read) acc) rest

/-- The session_classification sub-record of calculate_reading_habits. -/
structure SessionClassification where
  short : Nat
  medium : Nat
  long : Nat
  short_percentage : ℚ
  medium_percentage : ℚ
  long_percentage : ℚ
deriving DecidableEq, Repr

/-- The best_month sub-record of calculate_reading_habits. -/
structure BestMonth where
  name : String
  minutes : Int
  hours : ℚ
deriving DecidableEq, Repr

/-- The record WrappedService.calculate_reading_habits returns. -/
structure ReadingHabits where
  average_session_duration : Int
  session_classification : SessionClassification
  favorite_day : String
  best_month : BestMonth
deriving DecidableEq, Repr

/-- WrappedService.calculate_reading_habits (lines 213-268): none models
the empty dict returned for an empty session list; Counter.most_common
and max over dict items keep the first-encountered maximum. -/
def calculate_reading_habits (sessions : List Session) :
    Except Unit (Option ReadingHabits) :=
  if sessions.isEmpty then .ok none
  else
    match dayCountsLoop [] sessions with
    | .error e => .error e
    | .ok day_counts =>
        match monthMinutesLoop [] sessions with
        | .error e => .error e
        | .ok month_minutes =>
            let n := sessions.length
            let total_minutes := sumMinutes sessions
            let short_sessions :=
              (sessions.filter (fun s => s.minutes_read < 20)).length
            let medium_sessions :=
              (sessions.filter
                (fun s => 20 ≤ s.minutes_read ∧ s.minutes_read ≤ 45)).length
            let long_sessions :=
              (sessions.filter (fun s => s.minutes_read > 45)).length
            let most_common_day_num :=
              match maxByFirst (fun p => p.2) day_counts with
              | none => 0
              | some p => p.1
            let best_month_num :=
              match maxByFirst (fun p => p.2) month_minutes with
              | none => 1
              | some p => p.1
            .ok (some
              { average_session_duration := Int.fdiv total_minutes n
                session_classification :=
                  { short := short_sessions
                    medium := medium_sessions
                    long := long_sessions
                    short_percentage :=
                      pyRound1 (((short_sessions : ℚ) / (n : ℚ)) * 100)
                    medium_percentage :=
                      pyRound1 (((medium_sessions : ℚ) / (n : ℚ)) * 100)
                    long_percentage :=
                      pyRound1 (((long_sessions : ℚ) / (n : ℚ)) * 100) }
                favorite_day := dayNames.getD most_common_day_num.toNat ""
                best_month :=
                  { name := monthNames.getD (best_month_num - 1) ""
                    minutes := lookupD month_minutes best_month_num 0
                    hours :=
                      pyRound1
                        (((lookupD month_minutes best_month_num 0 : Int) : ℚ)
                          / 60) } })

/-- WrappedService.calculate_general_stats (lines 37-72): note the empty
and non-empty dicts have different key sets (total_books_finished only in
the empty one, total_hours only in the non-empty one); total_days counts
distinct raw date values; the average uses Python floor division. -/
def calculate_general_stats (sessions : List Session) :
    Except Unit (List (String × PyVal)) :=
  if sessions.isEmpty then
    .ok [("total_books_finished", .int 0), ("total_minutes", .int 0),
         ("total_days_with_reading", .int 0),
         ("average_minutes_per_active_day", .int 0), ("longest_streak", .int 0)]
  else
    match wrapped_longest_streak sessions with
    | .error e => .error e
    | .ok longest_streak =>
        .ok [("total_minutes", .int (sumMinutes sessions)),
             ("total_hours", .rat (pyRound1 ((sumMinutes sessions : ℚ) / 60))),
             ("total_days_with_reading",
               .int ((sessions.map (·.date)).dedup.length)),
             ("average_minutes_per_active_day",
               .int (if 0 < (sessions.map (·.date)).dedup.length then
                  Int.fdiv (sumMinutes sessions)
                    ((sessions.map (·.date)).dedup.length)
                else 0)),
             ("longest_streak", .int (longest_streak : Int))]

/-!  Lemmas about the streak machinery.  -/

theorem mem_setAdd {d x : Int} {u : List Int} :
    x ∈ setAdd d u ↔ x = d ∨ x ∈ u := by
  unfold setAdd
  split
  · constructor
    · exact Or.inr
    · rintro (rfl | h)
      · assumption
      · exact h
  · simp [List.mem_cons]

theorem setAdd_nodup {d : Int} {u : List Int} (h : u.Nodup) :
    (setAdd d u).Nodup := by
  unfold setAdd
  split
  · exact h
  · exact List.nodup_cons.mpr ⟨by assumption, h⟩

theorem setAdd_ne_nil {d : Int} {u : List Int} : setAdd d u ≠ [] := by
  unfold setAdd
  split
  · intro h
    subst h
    simp_all
  · simp

theorem extract_nodup :
    ∀ {l : List Session} {u : List Int},
      extractUniqueDates l = .ok u → u.Nodup := by
  intro l
  induction l with
  | nil =>
      intro u h
      simp only [extractUniqueDates, Except.ok.injEq] at h
      subst h
      exact List.nodup_nil
  | cons s rest ih =>
      intro u h
      simp only [extractUniqueDates] at h
      cases hd : s.date.strptime with
      | error e => rw [hd] at h; exact absurd h (by simp)
      | ok d =>
          rw [hd] at h
          cases hr : extractUniqueDates rest with
          | error e => rw [hr] at h; exact absurd h (by simp)
          | ok u0 =>
              rw [hr] at h
              simp only [Except.ok.injEq] at h
              subst h
              exact setAdd_nodup (ih hr)

theorem extract_ne_nil :
    ∀ {l : List Session} {u : List Int},
      extractUniqueDates l = .ok u → l ≠ [] → u ≠ [] := by
  intro l u h hl
  cases l with
  | nil => exact absurd rfl hl
  | cons s rest =>
      simp only [extractUniqueDates] at h
      cases hd : s.date.strptime with
      | error e => rw [hd] at h; exact absurd h (by simp)
      | ok d =>
          rw [hd] at h
          cases hr : extractUniqueDates rest with
          | error e => rw [hr] at h; exact absurd h (by simp)
          | ok u0 =>
              rw [hr] at h
              simp only [Except.ok.injEq] at h
              subst h
              exact setAdd_ne_nil

theorem extract_ok_of_valid :
    ∀ {l : List Session}, (∀ s ∈ l, s.date.isValid) →
      ∃ u, extractUniqueDates l = .ok u := by
  intro l
  induction l with
  | nil => intro _; exact ⟨[], rfl⟩
  | cons s rest ih =>
      intro h
      obtain ⟨u0, hu0⟩ := ih (fun t ht => h t (List.mem_cons_of_mem _ ht))
      have hs := h s (List.mem_cons_self _ _)
      cases hd : s.date with
      | valid y m d =>
          refine ⟨setAdd d u0, ?_⟩
          simp [extractUniqueDates, hd, DateStr.strptime, hu0]
      | malformed p => rw [hd] at hs; exact absurd hs (by simp [DateStr.isValid])

theorem pyMax_spec :
    ∀ {u : List Int} {M : Int},
      pyMax u = some M → M ∈ u ∧ ∀ x ∈ u, x ≤ M := by
  intro u
  induction u with
  | nil => intro M h; simp [pyMax] at h
  | cons x xs ih =>
      intro M h
      simp only [pyMax] at h
      cases hx : pyMax xs with
      | none =>
          rw [hx] at h
          simp at h
          subst h
          refine ⟨List.mem_cons_self _ _, ?_⟩
          intro y hy
          rcases List.mem_cons.mp hy with rfl | hy
          · exact le_refl _
          · cases xs with
            | nil => simp at hy
            | cons a as => simp [pyMax] at hx; cases h' : pyMax as <;> rw [h'] at hx <;> simp at hx
      | some m =>
          rw [hx] at h
          simp at h
          subst h
          obtain ⟨hm, hall⟩ := ih hx
          constructor
          · rcases le_total x m with hle | hle
            · rw [max_eq_right hle]; exact List.mem_cons_of_mem _ hm
            · rw [max_eq_left hle]; exact List.mem_cons_self _ _
          · intro y hy
            rcases List.mem_cons.mp hy with rfl | hy
            · exact le_max_left _ _
            · exact le_trans (hall y hy) (le_max_right _ _)

theorem pyMax_isSome {u : List Int} (h : u ≠ []) : ∃ M, pyMax u = some M := by
  cases u with
  | nil => exact absurd rfl h
  | cons x xs =>
      simp only [pyMax]
      cases pyMax xs with
      | none => exact ⟨x, rfl⟩
      | some m => exact ⟨max x m, rfl⟩

theorem countBack_mem {u : List Int} :
    ∀ (fuel : Nat) (d : Int) (i : Nat),
      i < countBack u d fuel → (d - i) ∈ u := by
  intro fuel
  induction fuel with
  | zero => intro d i h; simp [countBack] at h
  | succ n ih =>
      intro d i h
      by_cases hd : d ∈ u
      · simp only [countBack, if_pos hd] at h
        cases i with
        | zero => simpa using hd
        | succ j =>
            have hj : j < countBack u (d - 1) n := by omega
            have := ih (d - 1) j hj
            have heq : d - ((j + 1 : Nat) : Int) = d - 1 - (j : Int) := by
              push_cast; ring
            rw [heq]
            exact this
      · simp [countBack, if_neg hd] at h

theorem countBack_pos {u : List Int} {d : Int} {fuel : Nat}
    (hd : d ∈ u) (hf : 0 < fuel) : 0 < countBack u d fuel := by
  cases fuel with
  | zero => omega
  | succ n => simp [countBack, hd]

theorem countBack_le {u : List Int} :
    ∀ (fuel : Nat) (d : Int), countBack u d fuel ≤ fuel := by
  intro fuel
  induction fuel with
  | zero => intro d; simp [countBack]
  | succ n ih =>
      intro d
      by_cases hd : d ∈ u
      · simp only [countBack, if_pos hd]
        have := ih (d - 1)
        omega
      · simp [countBack, if_neg hd]

theorem countBack_stop_lt {u : List Int} :
    ∀ (fuel : Nat) (d : Int),
      countBack u d fuel < fuel → (d - (countBack u d fuel : Int)) ∉ u := by
  intro fuel
  induction fuel with
  | zero => intro d h; omega
  | succ n ih =>
      intro d h
      by_cases hd : d ∈ u
      · simp only [countBack, if_pos hd] at h ⊢
        have hlt : countBack u (d - 1) n < n := by omega
        have hres := ih (d - 1) hlt
        intro hmem
        apply hres
        have heq : d - 1 - (countBack u (d - 1) n : Int)
            = d - ((countBack u (d - 1) n + 1 : Nat) : Int) := by push_cast; ring
        rw [heq]
        exact hmem
      · simpa [countBack, if_neg hd] using hd

theorem countBack_stop {u : List Int} (hn : u.Nodup) (d : Int) :
    (d - (countBack u d u.length : Int)) ∉ u := by
  set k := countBack u d u.length with hk
  rcases lt_or_ge k u.length with hlt | hge
  · exact countBack_stop_lt u.length d hlt
  -- k = u.length: the k walked dates d, d-1, ..., d-k+1 are k distinct
  -- members of u, so they are all of u; d-k is none of them.
  · have hkl : k = u.length := le_antisymm (hk ▸ countBack_le u.length d) hge
    intro hmem
    -- the image of i ↦ d - i over range k sits inside u, is nodup, and has
    -- length k = u.length, so its toFinset is u.toFinset
    have himg : ∀ x ∈ (List.range k).map (fun i : Nat => d - (i : Int)), x ∈ u := by
      intro x hx
      simp only [List.mem_map, List.mem_range] at hx
      obtain ⟨i, hi, rfl⟩ := hx
      exact countBack_mem u.length d i (by omega)
    have hnd : ((List.range k).map (fun i : Nat => d - (i : Int))).Nodup := by
      refine List.Nodup.map ?_ (List.nodup_range _)
      intro a b hab
      simp only at hab
      omega
    have hsub : ((List.range k).map (fun i : Nat => d - (i : Int))).toFinset
        ⊆ u.toFinset := by
      intro x hx
      rw [List.mem_toFinset] at hx ⊢
      exact himg x hx
    have hcard1 : ((List.range k).map (fun i : Nat => d - (i : Int))).toFinset.card
        = k := by
      rw [List.toFinset_card_of_nodup hnd]
      simp
    have hcard2 : u.toFinset.card = u.length := List.toFinset_card_of_nodup hn
    have heq : ((List.range k).map (fun i : Nat => d - (i : Int))).toFinset
        = u.toFinset := by
      apply Finset.eq_of_subset_of_card_le hsub
      rw [hcard1, hcard2, hkl]
    have hback : (d - (k : Int))
        ∈ ((List.range k).map (fun i : Nat => d - (i : Int))).toFinset := by
      rw [heq, List.mem_toFinset]
      exact hmem
    rw [List.mem_toFinset] at hback
    simp only [List.mem_map, List.mem_range] at hback
    obtain ⟨i, hi, hieq⟩ := hback
    omega

theorem mem_consecFrom {x a : Int} :
    ∀ {k : Nat}, x ∈ consecFrom a k ↔ a ≤ x ∧ x < a + k := by
  intro k
  induction k generalizing a with
  | zero => simp [consecFrom]
  | succ n ih =>
      simp only [consecFrom, List.mem_cons, ih]
      omega

theorem sorted_consecFrom {a : Int} :
    ∀ {k : Nat}, (consecFrom a k).Sorted (· ≤ ·) := by
  intro k
  induction k generalizing a with
  | zero => simp [consecFrom]
  | succ n ih =>
      simp only [consecFrom, List.sorted_cons]
      refine ⟨?_, ih⟩
      intro b hb
      have := mem_consecFrom.mp hb
      omega

theorem nodup_consecFrom {a : Int} :
    ∀ {k : Nat}, (consecFrom a k).Nodup := by
  intro k
  induction k generalizing a with
  | zero => simp [consecFrom]
  | succ n ih =>
      simp only [consecFrom, List.nodup_cons]
      refine ⟨?_, ih⟩
      intro hmem
      have := mem_consecFrom.mp hmem
      omega

theorem sort_decomp {u : List Int} {M : Int} (hn : u.Nodup)
    (hM : pyMax u = some M) (j : Nat)
    (hrun : ∀ i : Nat, i ≤ j → (M - i) ∈ u) :
    List.insertionSort (· ≤ ·) u
      = List.insertionSort (· ≤ ·) (u.filter (fun x => decide (x < M - j)))
        ++ consecFrom (M - j) (j + 1) := by
  obtain ⟨hMmem, hMub⟩ := pyMax_spec hM
  set A := u.filter (fun x => decide (x < M - j)) with hA
  have hmemA : ∀ x, x ∈ A ↔ x ∈ u ∧ x < M - j := by
    intro x
    simp [hA, List.mem_filter]
  have hpermL : List.Perm (List.insertionSort (· ≤ ·) A) A := List.perm_insertionSort _ _
  have hAnd : A.Nodup := List.Nodup.filter _ hn
  have hLnd : (List.insertionSort (· ≤ ·) A).Nodup := hpermL.symm.nodup hAnd
  have hRnd : (consecFrom (M - j) (j + 1)).Nodup := nodup_consecFrom
  have hdisj : ∀ x ∈ List.insertionSort (· ≤ ·) A, x ∉ consecFrom (M - j) (j + 1) := by
    intro x hx hcx
    have h1 := (hmemA x).mp (hpermL.mem_iff.mp hx)
    have h2 := mem_consecFrom.mp hcx
    omega
  have happnd : (List.insertionSort (· ≤ ·) A ++ consecFrom (M - j) (j + 1)).Nodup := by
    refine List.Nodup.append hLnd hRnd ?_
    intro x hx hcx
    exact hdisj x hx hcx
  have hfins : u.toFinset
      = (List.insertionSort (· ≤ ·) A ++ consecFrom (M - j) (j + 1)).toFinset := by
    ext x
    simp only [List.mem_toFinset, List.mem_append]
    constructor
    · intro hx
      by_cases hlt : x < M - j
      · exact Or.inl (hpermL.mem_iff.mpr ((hmemA x).mpr ⟨hx, hlt⟩))
      · refine Or.inr (mem_consecFrom.mpr ?_)
        have := hMub x hx
        push_cast
        omega
    · rintro (hx | hx)
      · exact ((hmemA x).mp (hpermL.mem_iff.mp hx)).1
      · have hb := mem_consecFrom.mp hx
        have hxle : x ≤ M := by push_cast at hb; omega
        have hnn : (0 : Int) ≤ M - x := by omega
        have hix : ((M - x).toNat : Int) = M - x := Int.toNat_of_nonneg hnn
        have hle : (M - x).toNat ≤ j := by omega
        have := hrun (M - x).toNat hle
        have hxeq : M - ((M - x).toNat : Int) = x := by omega
        rw [hxeq] at this
        exact this
  have hperm : List.Perm (List.insertionSort (· ≤ ·) u)
      (List.insertionSort (· ≤ ·) A ++ consecFrom (M - j) (j + 1)) := by
    refine (List.perm_insertionSort _ _).trans ?_
    exact List.perm_of_nodup_nodup_toFinset_eq hn happnd hfins
  refine List.eq_of_perm_of_sorted hperm (List.sorted_insertionSort _ _) ?_
  refine List.pairwise_append.mpr ⟨List.sorted_insertionSort _ _, sorted_consecFrom, ?_⟩
  intro a ha b hb
  have h1 := (hmemA a).mp (hpermL.mem_iff.mp ha)
  have h2 := mem_consecFrom.mp hb
  omega

theorem scan_run :
    ∀ (k : Nat) (b : Int) (cur mx : Nat), cur ≤ mx →
      cur + k ≤ scanStreak b cur mx (consecFrom (b + 1) k) := by
  intro k
  induction k with
  | zero => intro b cur mx h; simpa [consecFrom, scanStreak] using h
  | succ n ih =>
      intro b cur mx h
      simp only [consecFrom, scanStreak]
      rw [if_pos (by ring)]
      have := ih (b + 1) (cur + 1) (max mx (cur + 1)) (le_max_right _ _)
      omega

theorem scan_block {b : Int} {k : Nat} :
    ∀ (xs : List Int) (prev : Int) (cur mx : Nat), 1 ≤ cur → cur ≤ mx →
      k + 1 ≤ scanStreak prev cur mx (xs ++ consecFrom b (k + 1)) := by
  intro xs
  induction xs with
  | nil =>
      intro prev cur mx h1 h2
      simp only [List.nil_append, consecFrom, scanStreak]
      split
      · have := scan_run k b (cur + 1) (max mx (cur + 1)) (le_max_right _ _)
        omega
      · have := scan_run k b 1 mx (by omega)
        omega
  | cons x xs ih =>
      intro prev cur mx h1 h2
      simp only [List.cons_append, scanStreak]
      split
      · exact ih x (cur + 1) (max mx (cur + 1)) (by omega) (le_max_right _ _)
      · exact ih x 1 mx (by omega) (by omega)

theorem maxStreak_ge_run {u : List Int} {M : Int} (hn : u.Nodup)
    (hM : pyMax u = some M) (j : Nat)
    (hrun : ∀ i : Nat, i ≤ j → (M - i) ∈ u) :
    ∀ {d : Int} {rest : List Int},
      List.insertionSort (· ≤ ·) u = d :: rest → j + 1 ≤ scanStreak d 1 1 rest := by
  intro d rest hsort
  have hdec := sort_decomp hn hM j hrun
  rw [hsort] at hdec
  cases hL : List.insertionSort (· ≤ ·) (u.filter (fun x => decide (x < M - j))) with
  | nil =>
      rw [hL, List.nil_append] at hdec
      simp only [consecFrom] at hdec
      rw [List.cons.injEq] at hdec
      obtain ⟨hd, hrest⟩ := hdec
      subst hd
      rw [hrest]
      have := scan_run j (M - j) 1 1 (le_refl 1)
      omega
  | cons x xs =>
      rw [hL, List.cons_append] at hdec
      rw [List.cons.injEq] at hdec
      obtain ⟨hd, hrest⟩ := hdec
      subst hd
      rw [hrest]
      exact scan_block xs d 1 1 (le_refl 1) (le_refl 1)

theorem countBack_le_scan {u : List Int} {M d : Int} {rest : List Int}
    (hn : u.Nodup) (hM : pyMax u = some M)
    (hs : List.insertionSort (· ≤ ·) u = d :: rest) :
    countBack u M u.length ≤ scanStreak d 1 1 rest := by
  cases hk : countBack u M u.length with
  | zero => omega
  | succ j =>
      have hrun : ∀ i : Nat, i ≤ j → (M - i) ∈ u := by
        intro i hi
        exact countBack_mem u.length M i (by omega)
      have := maxStreak_ge_run hn hM j hrun hs
      omega

/-- C3: for every session history and every value of today, the current
streak computed by calculate_current_streak never exceeds the maximum
streak computed by calculate_max_streak over the same history. -/
theorem C3_current_streak_le_max_streak (sessions : List Session) (today : Int)
    (c m : Nat) (hc : calculate_current_streak sessions today = .ok c)
    (hm : calculate_max_streak sessions = .ok m) : c ≤ m := by
  unfold calculate_current_streak at hc
  unfold calculate_max_streak at hm
  by_cases hemp : sessions.isEmpty
  · rw [if_pos hemp] at hc
    simp only [Except.ok.injEq] at hc
    omega
  · rw [if_neg hemp] at hc hm
    cases hex : extractUniqueDates sessions with
    | error e =>
        rw [hex] at hc
        exact absurd hc (by simp)
    | ok u =>
        rw [hex] at hc hm
        simp only at hc hm
        by_cases hue : u.isEmpty
        · rw [if_pos hue] at hc
          simp only [Except.ok.injEq] at hc
          omega
        · rw [if_neg hue] at hc hm
          have hne : u ≠ [] := by
            cases u
            · simp at hue
            · simp
          have hn : u.Nodup := extract_nodup hex
          obtain ⟨M, hM⟩ := pyMax_isSome hne
          rw [hM] at hc
          simp only at hc
          cases hs : List.insertionSort (· ≤ ·) u with
          | nil =>
              have hp := List.perm_insertionSort (· ≤ ·) u
              rw [hs] at hp
              exact absurd hp.symm.eq_nil hne
          | cons d rest =>
              rw [hs] at hm
              simp only [Except.ok.injEq] at hm
              subst hm
              by_cases hgap : today - M > 1
              · rw [if_pos hgap] at hc
                simp only [Except.ok.injEq] at hc
                omega
              · rw [if_neg hgap] at hc
                simp only [Except.ok.injEq] at hc
                subst hc
                exact countBack_le_scan hn hM hs

/-- C3 witness: a concrete instantiation of the streak inequality. -/
theorem C3_current_streak_le_max_streak_witness :
    1 ≤ 2 ∧
    calculate_current_streak sessJan (ord20240101 + 3) = .ok 1 ∧
    calculate_max_streak sessJan = .ok 2 :=
  ⟨C3_current_streak_le_max_streak sessJan (ord20240101 + 3) 1 2 (by decide)
      (by decide),
   by decide, by decide⟩


theorem streak_jan_pattern (a : Int) (sessions : List Session) (u : List Int)
    (hu : extractUniqueDates sessions = .ok u)
    (hset : ∀ x : Int, x ∈ u ↔ x = a ∨ x = a + 1 ∨ x = a + 3) :
    calculate_current_streak sessions (a + 3) = .ok 1 ∧
    calculate_max_streak sessions = .ok 2 := by
  have hns : sessions ≠ [] := by
    intro h
    subst h
    simp only [extractUniqueDates, Except.ok.injEq] at hu
    subst hu
    have := (hset a).mpr (Or.inl rfl)
    simp at this
  have hemp : sessions.isEmpty = false := by
    cases sessions
    · exact absurd rfl hns
    · rfl
  have hn : u.Nodup := extract_nodup hu
  have hmem3 : a + 3 ∈ u := (hset _).mpr (Or.inr (Or.inr rfl))
  have hmem1 : a + 1 ∈ u := (hset _).mpr (Or.inr (Or.inl rfl))
  have hmem0 : a ∈ u := (hset _).mpr (Or.inl rfl)
  have hnmem2 : a + 2 ∉ u := by
    intro h
    rcases (hset _).mp h with h | h | h <;> omega
  have hne : u ≠ [] := by
    intro h
    rw [h] at hmem3
    simp at hmem3
  have hueF : u.isEmpty = false := by
    cases u
    · exact absurd rfl hne
    · rfl
  have hLnd : ([a, a + 1, a + 3] : List Int).Nodup := by
    have h1 : a ∉ ([a + 1, a + 3] : List Int) := by
      intro h
      rcases List.mem_cons.mp h with h | h
      · omega
      · simp only [List.mem_singleton] at h
        omega
    have h2 : (a + 1) ∉ ([a + 3] : List Int) := by
      intro h
      simp only [List.mem_singleton] at h
      omega
    exact List.nodup_cons.mpr ⟨h1, List.nodup_cons.mpr ⟨h2, List.nodup_singleton _⟩⟩
  have htf : u.toFinset = ([a, a + 1, a + 3] : List Int).toFinset := by
    ext x
    simp only [List.mem_toFinset, hset x, List.mem_cons, List.mem_singleton,
      List.not_mem_nil, or_false]
  have hperm : List.Perm u [a, a + 1, a + 3] :=
    List.perm_of_nodup_nodup_toFinset_eq hn hLnd htf
  have hlen : u.length = 3 := by
    have := hperm.length_eq
    simpa using this
  -- pyMax u = some (a + 3)
  obtain ⟨M, hM⟩ := pyMax_isSome hne
  obtain ⟨hMmem, hMub⟩ := pyMax_spec hM
  have hMval : M = a + 3 := by
    have h3 := hMub _ hmem3
    rcases (hset M).mp hMmem with h | h | h <;> omega
  subst hMval
  constructor
  · -- current streak is 1
    unfold calculate_current_streak
    rw [hemp]
    simp only [Bool.false_eq_true, if_false]
    rw [hu]
    simp only
    rw [hueF]
    simp only [Bool.false_eq_true, if_false]
    rw [hM]
    simp only
    rw [if_neg (by omega)]
    rw [hlen]
    simp only [countBack, if_pos hmem3]
    have e2 : a + 3 - 1 = a + 2 := by ring
    rw [e2, if_neg hnmem2]
  · -- max streak is 2
    unfold calculate_max_streak
    rw [hemp]
    simp only [Bool.false_eq_true, if_false]
    rw [hu]
    simp only
    rw [hueF]
    simp only [Bool.false_eq_true, if_false]
    have hsorted : ([a, a + 1, a + 3] : List Int).Sorted (· ≤ ·) := by
      refine List.sorted_cons.mpr
        ⟨?_, List.sorted_cons.mpr ⟨?_, List.sorted_singleton _⟩⟩
      · intro b hb
        rcases List.mem_cons.mp hb with rfl | hb
        · omega
        · simp only [List.mem_singleton] at hb
          omega
      · intro b hb
        simp only [List.mem_singleton] at hb
        omega
    have hsort : List.insertionSort (· ≤ ·) u = [a, a + 1, a + 3] :=
      List.eq_of_perm_of_sorted ((List.perm_insertionSort _ u).trans hperm)
        (List.sorted_insertionSort _ _) hsorted
    rw [hsort]
    simp only [scanStreak]
    rw [if_pos (by ring : a + 1 - a = (1 : Int))]
    rw [if_neg (by omega : ¬ (a + 3 - (a + 1) = (1 : Int)))]
    norm_num

/-- C1 counterexample: on the concrete history with sessions on
2024-01-01, 2024-01-02 and 2024-01-04 and today = 2024-01-04, the code
does not return current streak 2 and max streak 2 (the current streak it
returns is 1: walking back from Jan 4 stops at the Jan 3 gap). -/
theorem C1_counterexample :
    ¬ (calculate_current_streak sessJan (ord20240101 + 3) = .ok 2 ∧
       calculate_max_streak sessJan = .ok 2) := by
  decide

/-- C1 (amended): for every session history whose distinct dates are
exactly {2024-01-01, 2024-01-02, 2024-01-04}, with today = 2024-01-04,
calculate_current_streak returns 1 and calculate_max_streak returns 2. -/
theorem C1_jan_example_streaks (sessions : List Session) (u : List Int)
    (hu : extractUniqueDates sessions = .ok u)
    (hset : ∀ x : Int, x ∈ u ↔
      x = ord20240101 ∨ x = ord20240101 + 1 ∨ x = ord20240101 + 3) :
    calculate_current_streak sessions (ord20240101 + 3) = .ok 1 ∧
    calculate_max_streak sessions = .ok 2 :=
  streak_jan_pattern ord20240101 sessions u hu hset

/-- C1 witness: the amended claim instantiated at the concrete history. -/
theorem C1_jan_example_streaks_witness :
    calculate_current_streak sessJan (ord20240101 + 3) = .ok 1 ∧
    calculate_max_streak sessJan = .ok 2 :=
  C1_jan_example_streaks sessJan
    [ord20240101, ord20240101 + 1, ord20240101 + 3] (by decide)
    (by intro x; simp)

/-- C2: for every non-empty session history with parseable dates, the
current streak is 0 exactly when today is more than one day past the most
recent distinct session date; otherwise it equals the count of
consecutive days present in the distinct-date set walking backward from
the most recent date, stopping at the first gap.  In particular, with a
single session on 2024-01-01 and today = 2024-01-05, the current streak
is 0 and the max streak is 1. -/
theorem C2_current_streak_zero_iff_gap (sessions : List Session)
    (today : Int) (u : List Int) (M : Int)
    (hne : sessions ≠ [])
    (hu : extractUniqueDates sessions = .ok u)
    (hM : pyMax u = some M) :
    ((calculate_current_streak sessions today = .ok 0 ↔ today - M > 1) ∧
     (today - M ≤ 1 →
        ∃ k : Nat, calculate_current_streak sessions today = .ok k ∧ 1 ≤ k ∧
          (∀ i : Nat, i < k → (M - (i : Int)) ∈ u) ∧ (M - (k : Int)) ∉ u)) ∧
    calculate_current_streak sessJan1 (ord20240101 + 4) = .ok 0 ∧
    calculate_max_streak sessJan1 = .ok 1 := by
  have hemp : sessions.isEmpty = false := by
    cases sessions
    · exact absurd rfl hne
    · rfl
  have hn : u.Nodup := extract_nodup hu
  have hne_u : u ≠ [] := extract_ne_nil hu hne
  have hueF : u.isEmpty = false := by
    cases u
    · exact absurd rfl hne_u
    · rfl
  have hlpos : 0 < u.length := List.length_pos.mpr hne_u
  have hMmem : M ∈ u := (pyMax_spec hM).1
  have hred : calculate_current_streak sessions today
      = if today - M > 1 then .ok 0 else .ok (countBack u M u.length) := by
    unfold calculate_current_streak
    rw [hemp]
    simp only [Bool.false_eq_true, if_false]
    rw [hu]
    simp only
    rw [hueF]
    simp only [Bool.false_eq_true, if_false]
    rw [hM]
  refine ⟨⟨?_, ?_⟩, by decide, by decide⟩
  · rw [hred]
    by_cases hgap : today - M > 1
    · rw [if_pos hgap]
      simp [hgap]
    · rw [if_neg hgap]
      simp only [Except.ok.injEq]
      constructor
      · intro h0
        exfalso
        have hpos : 0 < countBack u M u.length := countBack_pos hMmem hlpos
        omega
      · intro h
        exact absurd h hgap
  · intro hgap
    refine ⟨countBack u M u.length, ?_, ?_, ?_, ?_⟩
    · rw [hred, if_neg (by omega)]
    · exact countBack_pos hMmem hlpos
    · intro i hi
      exact countBack_mem u.length M i hi
    · exact countBack_stop hn M

/-- C2 witness: the characterization instantiated on the single-session
history with today four days later. -/
theorem C2_current_streak_zero_iff_gap_witness :
    (calculate_current_streak sessJan1 (ord20240101 + 4) = .ok 0 ↔
      ord20240101 + 4 - ord20240101 > 1) :=
  ((C2_current_streak_zero_iff_gap sessJan1 (ord20240101 + 4)
      [ord20240101] ord20240101 (by decide) (by decide) (by decide)).1).1

theorem mem_updAssoc {κ α : Type} [DecidableEq κ] {k : κ} {d : α} {f : α → α} :
    ∀ {l : List (κ × α)} {p : κ × α}, p ∈ updAssoc k d f l → p.1 = k ∨ p ∈ l := by
  intro l
  induction l with
  | nil =>
      intro p hp
      simp only [updAssoc, List.mem_singleton] at hp
      subst hp
      exact Or.inl rfl
  | cons q rest ih =>
      intro p hp
      obtain ⟨k', v⟩ := q
      simp only [updAssoc] at hp
      by_cases hk : k = k'
      · rw [if_pos hk] at hp
        rcases List.mem_cons.mp hp with rfl | hp
        · exact Or.inl hk.symm
        · exact Or.inr (List.mem_cons_of_mem _ hp)
      · rw [if_neg hk] at hp
        rcases List.mem_cons.mp hp with rfl | hp
        · exact Or.inr (List.mem_cons_self _ _)
        · rcases ih hp with h | h
          · exact Or.inl h
          · exact Or.inr (List.mem_cons_of_mem _ h)

theorem sum_updAssoc {κ : Type} [DecidableEq κ] (k : κ) (m : Int) :
    ∀ (l : List (κ × Int)),
      sumValues (updAssoc k 0 (· + m) l) = sumValues l + m := by
  intro l
  induction l with
  | nil => simp [updAssoc, sumValues]
  | cons q rest ih =>
      obtain ⟨k', v⟩ := q
      simp only [updAssoc]
      by_cases hk : k = k'
      · rw [if_pos hk]
        simp only [sumValues, List.map_cons, List.sum_cons]
        ring
      · rw [if_neg hk]
        simp only [sumValues, List.map_cons, List.sum_cons] at ih ⊢
        rw [ih]
        ring

theorem daily_fold_sum :
    ∀ (l : List Session) (acc : List (DateStr × Int)),
      sumValues (l.foldl
        (fun acc s => updAssoc s.date 0 (· + s.minutes_read) acc) acc)
        = sumValues acc + sumMinutes l := by
  intro l
  induction l with
  | nil => intro acc; simp [sumMinutes]
  | cons s rest ih =>
      intro acc
      simp only [List.foldl_cons]
      rw [ih]
      rw [sum_updAssoc]
      simp only [sumMinutes, List.map_cons, List.sum_cons]
      ring

theorem wrapped_ok_of_valid {l : List Session}
    (h : ∀ s ∈ l, s.date.isValid) :
    ∃ k, wrapped_longest_streak l = .ok k := by
  unfold wrapped_longest_streak
  by_cases hemp : l.isEmpty
  · rw [if_pos hemp]
    exact ⟨0, rfl⟩
  · rw [if_neg hemp]
    obtain ⟨u, hu⟩ := extract_ok_of_valid h
    rw [hu]
    simp only
    cases List.insertionSort (· ≤ ·) u with
    | nil => exact ⟨0, rfl⟩
    | cons d rest => exact ⟨scanStreak d 1 1 rest, rfl⟩

/-- C4: the spec requires records with malformed date strings to be
skipped with a logged warning, but the code has no try/except around its
strptime calls: a malformed date makes calculate_current_streak,
_calculate_longest_streak and calculate_reading_habits raise ValueError
(modelled as Except.error) and abort. -/
theorem C4_malformed_date_aborts :
    calculate_current_streak
      [⟨1, 1, .valid 2024 1 ord20240101, 30⟩, ⟨2, 1, .malformed none, 25⟩]
      (ord20240101 + 1) = .error () ∧
    wrapped_longest_streak [⟨1, 1, .malformed none, 25⟩] = .error () ∧
    calculate_reading_habits [⟨1, 1, .malformed none, 25⟩] = .error () := by
  refine ⟨?_, ?_, ?_⟩ <;> rfl

/-- C9: for every session list and the same optional year filter, summing
all values of the per-day grouping of get_daily_stats gives exactly
get_total_time_read. -/
theorem C9_daily_stats_sum_eq_total (sessions : List Session)
    (year : Option Int) :
    sumValues (get_daily_stats sessions year)
      = get_total_time_read sessions year := by
  unfold get_daily_stats get_total_time_read
  rw [daily_fold_sum]
  simp [sumValues]

/-- C10: WrappedService.calculate_general_stats returns different key
sets for the empty and non-empty cases: the empty dict carries
total_books_finished (value 0) and no total_hours key, while every
non-empty result (for a history the computation completes on) carries
total_hours and no total_books_finished key. -/
theorem C10_general_stats_key_asymmetry :
    (∃ m, calculate_general_stats [] = .ok m ∧
       ("total_books_finished", PyVal.int 0) ∈ m ∧
       "total_hours" ∉ m.map Prod.fst) ∧
    (∀ sessions : List Session, sessions ≠ [] →
      (∀ s ∈ sessions, s.date.isValid) →
      ∃ m, calculate_general_stats sessions = .ok m ∧
        "total_hours" ∈ m.map Prod.fst ∧
        "total_books_finished" ∉ m.map Prod.fst) := by
  constructor
  · refine ⟨_, rfl, ?_, ?_⟩ <;> decide
  · intro sessions hne hval
    have hemp : sessions.isEmpty = false := by
      cases sessions
      · exact absurd rfl hne
      · rfl
    obtain ⟨k, hk⟩ := wrapped_ok_of_valid hval
    refine ⟨[("total_minutes", .int (sumMinutes sessions)),
             ("total_hours", .rat (pyRound1 ((sumMinutes sessions : ℚ) / 60))),
             ("total_days_with_reading",
               .int ((sessions.map (·.date)).dedup.length)),
             ("average_minutes_per_active_day",
               .int (if 0 < (sessions.map (·.date)).dedup.length then
                  Int.fdiv (sumMinutes sessions)
                    ((sessions.map (·.date)).dedup.length)
                else 0)),
             ("longest_streak", .int (k : Int))], ?_, ?_, ?_⟩
    · unfold calculate_general_stats
      rw [hemp]
      simp only [Bool.false_eq_true, if_false]
      rw [hk]
    · simp
    · simp

/-- C10 witness: the non-empty branch instantiated at a concrete
one-session history. -/
theorem C10_general_stats_key_asymmetry_witness :
    ∃ m, calculate_general_stats sessJan1 = .ok m ∧
      "total_hours" ∈ m.map Prod.fst ∧
      "total_books_finished" ∉ m.map Prod.fst :=
  C10_general_stats_key_asymmetry.2 sessJan1 (by decide)
    (by intro s hs; fin_cases hs; trivial)

/-- C8: on empty session sets the totals, both streaks and the
most-read book degrade to 0 / 0 / 0 / none without an exception, and
both averages over possibly-zero counts are guarded:
average_minutes_per_day of get_wrapped_stats is 0 when days_read is 0,
and completion_rate of calculate_reading_status is 0 when no books
started in the year, so no division is ever performed on a zero count. -/
theorem C8_empty_inputs_and_zero_guards :
    (∀ year, get_total_time_read [] year = 0) ∧
    (∀ today, calculate_current_streak [] today = .ok 0) ∧
    calculate_max_streak [] = .ok 0 ∧
    (∀ year, get_most_read_book [] year = none) ∧
    (∀ (sessions : List Session) (swb : List SessionWithBook)
        (books : List Book) (year today : Int) (w : WrappedStats),
        get_wrapped_stats sessions swb books year today = .ok w →
        w.days_read = 0 → w.average_minutes_per_day = 0) ∧
    (∀ (books : List Book) (year now : Int),
        (books.filter (startedTruthyInYear year)).length = 0 →
        (calculate_reading_status books year now).completion_rate = 0) := by
  refine ⟨?_, ?_, rfl, ?_, ?_, ?_⟩
  · intro year
    cases year <;> rfl
  · intro today
    rfl
  · intro year
    cases year <;> rfl
  · intro sessions swb books year today w h hd
    unfold get_wrapped_stats at h
    cases hb : get_books_finished_by_year books with
    | error e =>
        rw [hb] at h
        exact absurd h (by simp)
    | ok bfy =>
        rw [hb] at h
        simp only at h
        cases hcs : calculate_current_streak sessions today with
        | error e =>
            rw [hcs] at h
            exact absurd h (by simp)
        | ok cs =>
            rw [hcs] at h
            simp only [Except.ok.injEq] at h
            subst h
            have hlen : (get_daily_stats sessions (some year)).length = 0 := hd
            show (if 0 < (get_daily_stats sessions (some year)).length then
                pyRound1 ((get_total_time_read sessions (some year) : ℚ)
                  / ((get_daily_stats sessions (some year)).length : ℚ))
              else 0) = 0
            rw [if_neg (by omega)]
  · intro books year now h0
    show (if (books.filter (startedTruthyInYear year)).length ≠ 0 then
        pyRound1 ((((books.filter (finishedInYear year)).length : ℚ)
          / ((books.filter (startedTruthyInYear year)).length : ℚ)) * 100)
      else 0) = 0
    rw [if_neg (not_not_intro h0)]

/-- C8 witness: the two guarded-average conjuncts instantiated at
concrete empty inputs. -/
theorem C8_empty_inputs_and_zero_guards_witness :
    (∃ w, get_wrapped_stats [] [] [] 2024 0 = .ok w ∧
       w.average_minutes_per_day = 0) ∧
    (calculate_reading_status [] 2024 0).completion_rate = 0 :=
  ⟨⟨_, rfl, C8_empty_inputs_and_zero_guards.2.2.2.2.1 [] [] [] 2024 0 _ rfl rfl⟩,
   C8_empty_inputs_and_zero_guards.2.2.2.2.2 [] 2024 0 rfl⟩

/-- C7: the current_streak field of the wrapped report is computed by
calculate_current_streak over the full all-years session history
relative to the real today, and there are inputs where the year-scoped
history would give a different value. -/
theorem C7_wrapped_streak_uses_full_history :
    (∀ (sessions : List Session) (swb : List SessionWithBook)
        (books : List Book) (year today : Int) (w : WrappedStats),
        get_wrapped_stats sessions swb books year today = .ok w →
        calculate_current_streak sessions today = .ok w.current_streak) ∧
    (∃ (sessions : List Session) (year today : Int) (w : WrappedStats),
        get_wrapped_stats sessions [] [] year today = .ok w ∧
        calculate_current_streak (filterYear (some year) sessions) today
          ≠ .ok w.current_streak) := by
  constructor
  · intro sessions swb books year today w h
    unfold get_wrapped_stats at h
    cases hb : get_books_finished_by_year books with
    | error e =>
        rw [hb] at h
        exact absurd h (by simp)
    | ok bfy =>
        rw [hb] at h
        simp only at h
        cases hcs : calculate_current_streak sessions today with
        | error e =>
            rw [hcs] at h
            exact absurd h (by simp)
        | ok cs =>
            rw [hcs] at h
            simp only [Except.ok.injEq] at h
            subst h
            rfl
  · exact ⟨sessJan1, 2025, ord20240101, _, rfl, by decide⟩

/-- C7 witness: the full-history equation instantiated at a concrete
history (single session on 2024-01-01, today the same day, year 2024). -/
theorem C7_wrapped_streak_uses_full_history_witness :
    calculate_current_streak sessJan1 ord20240101 = .ok 1 := by
  have h := C7_wrapped_streak_uses_full_history.1 sessJan1 [] [] 2024
    ord20240101 _ rfl
  exact h

theorem author_totals_aux (year : Option Int) :
    ∀ (swb : List SessionWithBook) (acc : List (String × Int)),
      (∀ p ∈ acc, p.1 ≠ "" ∧ pyStrip p.1 ≠ "") →
      ∀ p ∈ List.foldl
          (fun acc t =>
            if swbYearKeep year t then
              match t.author with
              | none => acc
              | some a =>
                  if a = "" then acc
                  else if pyStrip a = "" then acc
                  else updAssoc a 0 (· + t.minutes_read) acc
            else acc) acc swb,
        p.1 ≠ "" ∧ pyStrip p.1 ≠ "" := by
  intro swb
  induction swb with
  | nil => intro acc hacc p hp; exact hacc p hp
  | cons t rest ih =>
      intro acc hacc p hp
      simp only [List.foldl_cons] at hp
      by_cases hy : swbYearKeep year t
      · rw [if_pos hy] at hp
        cases ha : t.author with
        | none =>
            rw [ha] at hp
            simp only at hp
            exact ih acc hacc p hp
        | some a =>
            rw [ha] at hp
            simp only at hp
            by_cases h1 : a = ""
            · rw [if_pos h1] at hp
              exact ih acc hacc p hp
            · rw [if_neg h1] at hp
              by_cases h2 : pyStrip a = ""
              · rw [if_pos h2] at hp
                exact ih acc hacc p hp
              · rw [if_neg h2] at hp
                refine ih _ ?_ p hp
                intro q hq
                rcases mem_updAssoc hq with hqa | hq
                · rw [hqa]
                  exact ⟨h1, h2⟩
                · exact hacc q hq
      · rw [if_neg hy] at hp
        exact ih acc hacc p hp

theorem author_minutes_wrapped_aux (books : List Book) :
    ∀ (sessions : List Session) (acc : List (String × Int)),
      (∀ p ∈ acc, p.1 ≠ "") →
      ∀ p ∈ List.foldl
          (fun acc s =>
            match findBook books s.book_id with
            | none => acc
            | some b =>
                match b.author with
                | none => acc
                | some a =>
                    if a = "" then acc
                    else updAssoc a 0 (· + s.minutes_read) acc) acc sessions,
        p.1 ≠ "" := by
  intro sessions
  induction sessions with
  | nil => intro acc hacc p hp; exact hacc p hp
  | cons s rest ih =>
      intro acc hacc p hp
      simp only [List.foldl_cons] at hp
      cases hfb : findBook books s.book_id with
      | none =>
          rw [hfb] at hp
          exact ih acc hacc p hp
      | some b =>
          rw [hfb] at hp
          simp only at hp
          cases ha : b.author with
          | none =>
              rw [ha] at hp
              simp only at hp
              exact ih acc hacc p hp
          | some a =>
              rw [ha] at hp
              simp only at hp
              by_cases h1 : a = ""
              · rw [if_pos h1] at hp
                exact ih acc hacc p hp
              · rw [if_neg h1] at hp
                refine ih _ ?_ p hp
                intro q hq
                rcases mem_updAssoc hq with hqa | hq
                · rw [hqa]; exact h1
                · exact hacc q hq

/-- C5 counterexample: a book whose author is the whitespace string " "
slips past the truthiness-only guard of
WrappedService.calculate_authors_stats: its session lands in a
whitespace-keyed bucket and counts as a unique author, contradicting the
claim that whitespace-only authors are excluded from the grouping. -/
theorem C5_counterexample :
    author_minutes_wrapped [⟨1, 1, .valid 2024 1 ord20240101, 30⟩]
      [⟨1, "T", some " ", none, none, "reading"⟩] = [(" ", 30)] ∧
    pyStrip " " = "" ∧
    (calculate_authors_stats [⟨1, 1, .valid 2024 1 ord20240101, 30⟩]
      [⟨1, "T", some " ", none, none, "reading"⟩]).unique_authors = 1 := by
  refine ⟨rfl, rfl, rfl⟩

/-- C5 (amended): StatsService's author grouping (get_most_read_author)
excludes sessions whose author is absent, empty or whitespace-only, so
every bucket key has non-empty stripped text; WrappedService's
calculate_authors_stats grouping excludes only absent or empty authors
(its guard does not strip), so its bucket keys are merely non-empty and
a whitespace-only author does create a bucket. -/
theorem C5_author_grouping_guards (swb : List SessionWithBook)
    (year : Option Int) (sessions : List Session) (books : List Book) :
    (∀ p ∈ author_totals swb year, p.1 ≠ "" ∧ pyStrip p.1 ≠ "") ∧
    (∀ p ∈ author_minutes_wrapped sessions books, p.1 ≠ "") := by
  constructor
  · intro p hp
    exact author_totals_aux year swb [] (by intro q hq; simp at hq) p hp
  · intro p hp
    exact author_minutes_wrapped_aux books sessions [] (by intro q hq; simp at hq) p hp

/-- C5 witness: the guards instantiated on concrete groupings. -/
theorem C5_author_grouping_guards_witness :
    ("Author", (30 : Int)).1 ≠ "" ∧ pyStrip ("Author", (30 : Int)).1 ≠ "" :=
  (C5_author_grouping_guards
      [⟨1, 1, .valid 2024 1 ord20240101, 30, "T", some "Author"⟩] none [] []).1
    ("Author", 30) (by decide)

/-- C6: determine_reader_personality evaluates its rules in fixed
priority order with the first match winning: with an empty session list
it short-circuits to "beginner" regardless of the book data; otherwise
(a) more than 100 sessions with average length under 30 minutes gives
"constant_reader", (b) fewer than 50 sessions with average over 45
minutes gives "intensive_reader", (c) started-in-year count exceeding
twice the finished-in-year count gives "explorer", (d) a completion rate
above 80 percent gives "finisher", and otherwise "balanced_reader". -/
theorem C6_personality_rule_priority (sessions : List Session)
    (books : List Book) (year : Int) :
    determine_reader_personality sessions books year =
      if sessions = [] then "beginner"
      else if 100 < sessions.length ∧
          (sumMinutes sessions : ℚ) < 30 * (sessions.length : ℚ) then
        "constant_reader"
      else if sessions.length < 50 ∧
          (45 : ℚ) * (sessions.length : ℚ) < (sumMinutes sessions : ℚ) then
        "intensive_reader"
      else if 2 * (books.filter (finishedInYear year)).length
          < (books.filter (startedTruthyInYear year)).length then "explorer"
      else if (books.filter (startedTruthyInYear year)).length ≠ 0 ∧
          (80 : ℚ) * ((books.filter (startedTruthyInYear year)).length : ℚ)
            < 100 * ((books.filter (finishedInYear year)).length : ℚ) then
        "finisher"
      else "balanced_reader" := by
  unfold determine_reader_personality
  by_cases hemp : sessions.isEmpty
  · have hnil : sessions = [] := by
      cases sessions
      · rfl
      · simp at hemp
    rw [if_pos hemp, if_pos hnil]
  · have hne : sessions ≠ [] := by
      intro h
      subst h
      simp at hemp
    rw [if_neg hemp, if_neg hne]
    have hnpos : 0 < sessions.length := List.length_pos.mpr hne
    have hnq : (0 : ℚ) < (sessions.length : ℚ) := by exact_mod_cast hnpos
    have e1 : ((sumMinutes sessions : ℚ) / (sessions.length : ℚ) < 30)
        ↔ (sumMinutes sessions : ℚ) < 30 * (sessions.length : ℚ) :=
      div_lt_iff₀ hnq
    have e2 : ((sumMinutes sessions : ℚ) / (sessions.length : ℚ) > 45)
        ↔ (45 : ℚ) * (sessions.length : ℚ) < (sumMinutes sessions : ℚ) :=
      lt_div_iff₀ hnq
    have e3 : ((books.filter (startedTruthyInYear year)).length
          > (books.filter (finishedInYear year)).length * 2)
        ↔ 2 * (books.filter (finishedInYear year)).length
          < (books.filter (startedTruthyInYear year)).length := by
      constructor <;> intro h <;> omega
    have e4 : ((if (books.filter (startedTruthyInYear year)).length ≠ 0 then
          (((books.filter (finishedInYear year)).length : ℚ)
            / ((books.filter (startedTruthyInYear year)).length : ℚ)) * 100
        else 0) > 80)
        ↔ ((books.filter (startedTruthyInYear year)).length ≠ 0 ∧
            (80 : ℚ) * ((books.filter (startedTruthyInYear year)).length : ℚ)
              < 100 * ((books.filter (finishedInYear year)).length : ℚ)) := by
      by_cases hs : (books.filter (startedTruthyInYear year)).length = 0
      · rw [if_neg (not_not_intro hs)]
        constructor
        · intro h
          norm_num at h
        · rintro ⟨hh, -⟩
          exact absurd hs hh
      · rw [if_pos hs]
        have hq : (0 : ℚ)
            < ((books.filter (startedTruthyInYear year)).length : ℚ) := by
          have := Nat.pos_of_ne_zero hs
          exact_mod_cast this
        rw [gt_iff_lt, div_mul_eq_mul_div, lt_div_iff₀ hq]
        constructor
        · intro h
          exact ⟨hs, by linarith⟩
        · rintro ⟨-, h⟩
          linarith
    by_cases h1 : 100 < sessions.length ∧
        (sumMinutes sessions : ℚ) < 30 * (sessions.length : ℚ)
    · rw [if_pos ⟨h1.1, e1.mpr h1.2⟩, if_pos h1]
    · rw [if_neg (fun hh => h1 ⟨hh.1, e1.mp hh.2⟩), if_neg h1]
      by_cases h2 : sessions.length < 50 ∧
          (45 : ℚ) * (sessions.length : ℚ) < (sumMinutes sessions : ℚ)
      · rw [if_pos ⟨h2.1, e2.mpr h2.2⟩, if_pos h2]
      · rw [if_neg (fun hh => h2 ⟨hh.1, e2.mp hh.2⟩), if_neg h2]
        by_cases h3 : 2 * (books.filter (finishedInYear year)).length
            < (books.filter (startedTruthyInYear year)).length
        · rw [if_pos (e3.mpr h3), if_pos h3]
        · rw [if_neg (fun hh => h3 (e3.mp hh)), if_neg h3]
          by_cases h4 : (books.filter (startedTruthyInYear year)).length ≠ 0 ∧
              (80 : ℚ) * ((books.filter (startedTruthyInYear year)).length : ℚ)
                < 100 * ((books.filter (finishedInYear year)).length : ℚ)
          · rw [if_pos (e4.mpr h4), if_pos h4]
          · rw [if_neg (fun hh => h4 (e4.mp hh)), if_neg h4]
